import Mathlib

/-!
Verification of the category scoring and matchup engine and of the prediction
pipeline of the FantasyIntelligenceServices repository.

Stat values are modelled as rationals.  Python loops that accumulate into a
variable are modelled as folds over the same ranges; the definitions keep the
source names from organizer.py, visualizer.py and analyzer.py.
-/

/-- Embeds `won_at_this_stat` (organizer.py): for one stat column, the team
scores 1 against an opponent with a strictly smaller value, 0.5 on a tie and
0 otherwise. -/
def won_at_this_stat (team opponent : ℚ) : ℚ :=
  if team > opponent then 1 else if team = opponent then 1/2 else 0

/-- Embeds `calculate_stat_score` (organizer.py): loops over every team index
of the week's stat column, skips the team itself, and accumulates
`won_at_this_stat` of the team's value against each opponent's value. -/
def calculate_stat_score (stat : List ℚ) (team : Nat) : ℚ :=
  (List.range stat.length).foldl
    (fun acc i =>
      if i ≠ team then acc + won_at_this_stat (stat.getD team 0) (stat.getD i 0) else acc) 0

/-- Embeds `compare_with_opponent` (organizer.py): +1 for a win, 0 for a tie,
-1 for a loss at a single stat. -/
def compare_with_opponent (team opponent : ℚ) : ℚ :=
  if team > opponent then 1 else if team = opponent then 0 else -1

/-- The advantage accumulation inside `calculate_matchup_wins` (organizer.py):
the signed sum of `compare_with_opponent` over the scoring stat columns.  The
week's scoring columns are given as a list of per-team value lists. -/
def matchup_advantage (stats : List (List ℚ)) (team i : Nat) : ℚ :=
  stats.foldl
    (fun advantage stat =>
      advantage + compare_with_opponent (stat.getD team 0) (stat.getD i 0)) 0

/-- Embeds `calculate_matchup_wins` (organizer.py): for every opponent index,
the team receives 1 when its advantage is strictly positive, 0.5 when the
advantage is zero, and nothing otherwise. -/
def calculate_matchup_wins (num_teams : Nat) (stats : List (List ℚ)) (team : Nat) : ℚ :=
  (List.range num_teams).foldl
    (fun wins i =>
      if i ≠ team then
        if matchup_advantage stats team i > 0 then wins + 1
        else if matchup_advantage stats team i = 0 then wins + 1/2
        else wins
      else wins) 0

/-- The amount `calculate_matchup_wins` adds for one opponent. -/
def opponent_matchup_points (stats : List (List ℚ)) (team i : Nat) : ℚ :=
  if matchup_advantage stats team i > 0 then 1
  else if matchup_advantage stats team i = 0 then 1/2
  else 0

lemma foldl_guard_sum (f : Nat → ℚ) (team : Nat) :
    ∀ (n : Nat) (a : ℚ),
      (List.range n).foldl (fun acc i => if i ≠ team then acc + f i else acc) a
        = a + ∑ i ∈ Finset.range n, if i ≠ team then f i else 0 := by
  intro n
  induction n with
  | zero => intro a; simp
  | succ n ih =>
    intro a
    rw [List.range_succ, List.foldl_append, ih, Finset.sum_range_succ]
    by_cases h : n ≠ team
    · simp only [List.foldl_cons, List.foldl_nil, if_pos h]
      ring
    · simp only [List.foldl_cons, List.foldl_nil, if_neg h]
      ring

lemma foldl_add_map_sum (f : List ℚ → ℚ) :
    ∀ (l : List (List ℚ)) (a : ℚ),
      l.foldl (fun acc x => acc + f x) a = a + (l.map f).sum := by
  intro l
  induction l with
  | nil => intro a; simp
  | cons x t ih => intro a; simp [ih]; ring

lemma calculate_stat_score_eq_sum (stat : List ℚ) (team : Nat) :
    calculate_stat_score stat team
      = ∑ i ∈ Finset.range stat.length,
          if i ≠ team then won_at_this_stat (stat.getD team 0) (stat.getD i 0) else 0 := by
  rw [calculate_stat_score, foldl_guard_sum, zero_add]

lemma calculate_matchup_wins_eq_sum (num_teams : Nat) (stats : List (List ℚ)) (team : Nat) :
    calculate_matchup_wins num_teams stats team
      = ∑ i ∈ Finset.range num_teams,
          if i ≠ team then opponent_matchup_points stats team i else 0 := by
  have hstep :
      (fun (wins : ℚ) (i : Nat) =>
        if i ≠ team then
          if matchup_advantage stats team i > 0 then wins + 1
          else if matchup_advantage stats team i = 0 then wins + 1/2
          else wins
        else wins)
      = (fun (wins : ℚ) (i : Nat) =>
          if i ≠ team then wins + opponent_matchup_points stats team i else wins) := by
    funext wins i
    by_cases hi : i ≠ team
    · simp only [if_pos hi, opponent_matchup_points]
      by_cases h1 : matchup_advantage stats team i > 0
      · simp [h1]
      · by_cases h2 : matchup_advantage stats team i = 0
        · simp [h1, h2]
        · simp [h1, h2]
    · simp [hi]
  rw [calculate_matchup_wins, hstep, foldl_guard_sum, zero_add]

lemma compare_with_opponent_antisymm (a b : ℚ) :
    compare_with_opponent a b + compare_with_opponent b a = 0 := by
  rcases lt_trichotomy a b with h | h | h
  · simp [compare_with_opponent, h, not_lt.mpr h.le, h.ne, h.ne']
  · simp [compare_with_opponent, h]
  · simp [compare_with_opponent, h, not_lt.mpr h.le, h.ne, h.ne']

lemma matchup_advantage_antisymm (stats : List (List ℚ)) (t i : Nat) :
    matchup_advantage stats t i + matchup_advantage stats i t = 0 := by
  have key : ∀ (l : List (List ℚ)) (a b : ℚ), a + b = 0 →
      l.foldl (fun acc stat => acc + compare_with_opponent (stat.getD t 0) (stat.getD i 0)) a
        + l.foldl (fun acc stat => acc + compare_with_opponent (stat.getD i 0) (stat.getD t 0)) b
      = 0 := by
    intro l
    induction l with
    | nil => intro a b hab; simpa using hab
    | cons x tl ih =>
      intro a b hab
      simp only [List.foldl_cons]
      apply ih
      have := compare_with_opponent_antisymm (x.getD t 0) (x.getD i 0)
      linarith
  exact key stats 0 0 (by norm_num)

lemma opponent_matchup_points_pair (stats : List (List ℚ)) (t i : Nat) :
    opponent_matchup_points stats t i + opponent_matchup_points stats i t = 1 := by
  have hanti := matchup_advantage_antisymm stats t i
  rcases lt_trichotomy (matchup_advantage stats t i) 0 with h | h | h
  · have h2 : matchup_advantage stats i t > 0 := by linarith
    simp [opponent_matchup_points, h, h2, not_lt.mpr h.le, h.ne]
  · have h2 : matchup_advantage stats i t = 0 := by linarith
    simp [opponent_matchup_points, h, h2]
    norm_num
  · have h2 : matchup_advantage stats i t < 0 := by linarith
    simp [opponent_matchup_points, h, h2, not_lt.mpr h2.le, h2.ne]

lemma sum_indicator_ne (n t : Nat) (ht : t < n) :
    (∑ i ∈ Finset.range n, if i ≠ t then (1 : ℚ) else 0) = (n : ℚ) - 1 := by
  have hrw : ∀ i : Nat, (if i ≠ t then (1 : ℚ) else 0) = 1 - (if i = t then (1 : ℚ) else 0) := by
    intro i
    by_cases h : i = t <;> simp [h]
  rw [Finset.sum_congr rfl (fun i _ => hrw i), Finset.sum_sub_distrib, Finset.sum_const,
    Finset.sum_ite_eq' (Finset.range n) t (fun _ => (1 : ℚ)),
    if_pos (Finset.mem_range.mpr ht), Finset.card_range]
  simp

lemma total_matchup_wins (n : Nat) (stats : List (List ℚ)) :
    ∑ team ∈ Finset.range n, calculate_matchup_wins n stats team
      = (n : ℚ) * ((n : ℚ) - 1) / 2 := by
  have hq : ∀ t i : Nat,
      ((if i ≠ t then opponent_matchup_points stats t i else 0)
        + (if t ≠ i then opponent_matchup_points stats i t else 0))
      = if i ≠ t then (1 : ℚ) else 0 := by
    intro t i
    by_cases h : i = t
    · simp [h]
    · have h' : t ≠ i := fun he => h he.symm
      simp only [if_pos h, if_pos h']
      exact opponent_matchup_points_pair stats t i
  have hS :
      ∑ team ∈ Finset.range n, calculate_matchup_wins n stats team
        = ∑ t ∈ Finset.range n, ∑ i ∈ Finset.range n,
            if i ≠ t then opponent_matchup_points stats t i else 0 := by
    exact Finset.sum_congr rfl (fun t _ => calculate_matchup_wins_eq_sum n stats t)
  have hswap :
      ∑ t ∈ Finset.range n, ∑ i ∈ Finset.range n,
          (if i ≠ t then opponent_matchup_points stats t i else 0)
        = ∑ t ∈ Finset.range n, ∑ i ∈ Finset.range n,
            (if t ≠ i then opponent_matchup_points stats i t else 0) :=
    Finset.sum_comm
  have hdouble :
      (∑ t ∈ Finset.range n, ∑ i ∈ Finset.range n,
          (if i ≠ t then opponent_matchup_points stats t i else 0))
        + (∑ t ∈ Finset.range n, ∑ i ∈ Finset.range n,
            (if i ≠ t then opponent_matchup_points stats t i else 0))
      = (n : ℚ) * ((n : ℚ) - 1) := by
    nth_rewrite 1 [hswap]
    rw [← Finset.sum_add_distrib]
    have hinner : ∀ t ∈ Finset.range n,
        ((∑ i ∈ Finset.range n, (if t ≠ i then opponent_matchup_points stats i t else 0))
          + ∑ i ∈ Finset.range n, (if i ≠ t then opponent_matchup_points stats t i else 0))
        = (n : ℚ) - 1 := by
      intro t ht
      rw [← Finset.sum_add_distrib]
      have : ∀ i ∈ Finset.range n,
          ((if t ≠ i then opponent_matchup_points stats i t else 0)
            + (if i ≠ t then opponent_matchup_points stats t i else 0))
          = if i ≠ t then (1 : ℚ) else 0 := by
        intro i _
        rw [add_comm]
        exact hq t i
      rw [Finset.sum_congr rfl this]
      exact sum_indicator_ne n t (Finset.mem_range.mp ht)
    rw [Finset.sum_congr rfl hinner, Finset.sum_const, Finset.card_range]
    simp [mul_comm]
  rw [hS]
  linarith

/-- C3: in an n-team week, each team's matchup-win total is the sum over its
opponents of a per-opponent contribution that is always 1, 0.5 or 0, and the
n teams' totals sum to exactly n*(n-1)/2. -/
theorem matchup_wins_round_robin (n : Nat) (stats : List (List ℚ)) :
    (∀ team : Nat,
        (calculate_matchup_wins n stats team
          = ∑ i ∈ Finset.range n, if i ≠ team then opponent_matchup_points stats team i else 0)
        ∧ ∀ i : Nat,
            opponent_matchup_points stats team i = 1
            ∨ opponent_matchup_points stats team i = 1/2
            ∨ opponent_matchup_points stats team i = 0)
    ∧ ∑ team ∈ Finset.range n, calculate_matchup_wins n stats team
        = (n : ℚ) * ((n : ℚ) - 1) / 2 := by
  constructor
  · intro team
    refine ⟨calculate_matchup_wins_eq_sum n stats team, ?_⟩
    intro i
    by_cases h1 : matchup_advantage stats team i > 0
    · left; simp [opponent_matchup_points, h1]
    · by_cases h2 : matchup_advantage stats team i = 0
      · right; left; simp [opponent_matchup_points, h1, h2]
      · right; right; simp [opponent_matchup_points, h1, h2]
  · exact total_matchup_wins n stats

/-- C4: the matchup advantage of a team over an opponent is the signed sum over
the scoring categories of +1 (ahead), 0 (tie), -1 (behind), and the matchup-win
tally awards that opponent 1 exactly when the advantage is strictly positive,
0.5 exactly when it is zero, and 0 exactly when it is negative. -/
theorem matchup_advantage_rule (stats : List (List ℚ)) (team i : Nat) :
    matchup_advantage stats team i
      = ((stats.map (fun stat =>
            compare_with_opponent (stat.getD team 0) (stat.getD i 0))).sum)
    ∧ (∀ a b : ℚ, compare_with_opponent a b
        = if a > b then 1 else if a = b then 0 else -1)
    ∧ (opponent_matchup_points stats team i = 1 ↔ matchup_advantage stats team i > 0)
    ∧ (opponent_matchup_points stats team i = 1/2 ↔ matchup_advantage stats team i = 0)
    ∧ (opponent_matchup_points stats team i = 0 ↔ matchup_advantage stats team i < 0)
    ∧ (∀ n : Nat,
        calculate_matchup_wins n stats team
          = ∑ j ∈ Finset.range n, if j ≠ team then opponent_matchup_points stats team j else 0) := by
  refine ⟨?_, fun a b => rfl, ?_, ?_, ?_, fun n => calculate_matchup_wins_eq_sum n stats team⟩
  · rw [matchup_advantage, foldl_add_map_sum, zero_add]
  · constructor
    · intro h
      by_cases h1 : matchup_advantage stats team i > 0
      · exact h1
      · by_cases h2 : matchup_advantage stats team i = 0
        · simp only [opponent_matchup_points, if_neg h1, if_pos h2] at h
          norm_num at h
        · simp only [opponent_matchup_points, if_neg h1, if_neg h2] at h
          norm_num at h
    · intro h
      simp [opponent_matchup_points, h]
  · constructor
    · intro h
      by_cases h1 : matchup_advantage stats team i > 0
      · simp only [opponent_matchup_points, if_pos h1] at h
        norm_num at h
      · by_cases h2 : matchup_advantage stats team i = 0
        · exact h2
        · simp only [opponent_matchup_points, if_neg h1, if_neg h2] at h
          norm_num at h
    · intro h
      simp [opponent_matchup_points, h]
  · constructor
    · intro h
      by_cases h1 : matchup_advantage stats team i > 0
      · simp only [opponent_matchup_points, if_pos h1] at h
        norm_num at h
      · by_cases h2 : matchup_advantage stats team i = 0
        · simp only [opponent_matchup_points, if_neg h1, if_pos h2] at h
          norm_num at h
        · exact lt_of_le_of_ne (not_lt.mp h1) h2
    · intro h
      simp [opponent_matchup_points, not_lt.mpr h.le, h.ne]

/-- C2: a team's score in one category for one week is the round-robin sum over
the other n-1 team indices of 1 for a strictly greater stored value, 0.5 for an
equal value and 0 for a smaller one; the function reads only the stored
(direction-normalized) stat column, so a team is never excluded for having zero
games played, and negating both stored values (the storage rule for inverse
categories) turns the comparison around. -/
theorem stat_score_round_robin (stat : List ℚ) (team : Nat) (h : team < stat.length) :
    (calculate_stat_score stat team
      = ∑ i ∈ (Finset.range stat.length).erase team,
          (if stat.getD team 0 > stat.getD i 0 then (1 : ℚ)
           else if stat.getD team 0 = stat.getD i 0 then 1/2 else 0))
    ∧ ((Finset.range stat.length).erase team).card = stat.length - 1
    ∧ (∀ a b : ℚ, won_at_this_stat (-a) (-b) = won_at_this_stat b a) := by
  refine ⟨?_, ?_, ?_⟩
  · rw [calculate_stat_score_eq_sum, ← Finset.sum_filter, Finset.filter_ne']
    exact Finset.sum_congr rfl (fun i _ => rfl)
  · rw [Finset.card_erase_of_mem (Finset.mem_range.mpr h), Finset.card_range]
  · intro a b
    rcases lt_trichotomy a b with hab | hab | hab
    · simp [won_at_this_stat, hab, neg_lt_neg_iff, not_lt.mpr hab.le, hab.ne']
    · simp [won_at_this_stat, hab]
    · simp [won_at_this_stat, hab, neg_lt_neg_iff, not_lt.mpr hab.le, hab.ne, hab.ne']

theorem stat_score_round_robin_witness :
    (calculate_stat_score [(3 : ℚ), 1, 3] 0
      = ∑ i ∈ (Finset.range ([(3 : ℚ), 1, 3].length)).erase 0,
          (if [(3 : ℚ), 1, 3].getD 0 0 > [(3 : ℚ), 1, 3].getD i 0 then (1 : ℚ)
           else if [(3 : ℚ), 1, 3].getD 0 0 = [(3 : ℚ), 1, 3].getD i 0 then 1/2 else 0))
    ∧ ((Finset.range ([(3 : ℚ), 1, 3].length)).erase 0).card = [(3 : ℚ), 1, 3].length - 1
    ∧ (∀ a b : ℚ, won_at_this_stat (-a) (-b) = won_at_this_stat b a) :=
  stat_score_round_robin [(3 : ℚ), 1, 3] 0 (by norm_num)

/-- One team's weekly row for a single fraction-backed percentage category:
the made counter (e.g. FGM), the attempted counter (FGA) and the weekly
percentage column exactly as stored in the week table. -/
structure WeekPctRow where
  made : ℚ
  attempted : ℚ
  weekly_pct : ℚ
deriving DecidableEq

/-- A season-table cell group for one percentage category after aggregation:
the summed counters and the percentage column. -/
structure SeasonPctCell where
  made_sum : ℚ
  attempted_sum : ℚ
  pct : ℚ
deriving DecidableEq

/-- The pivot-table step of `create_season_table` (visualizer.py), whose
`aggfunc=np.sum` sums every column across the weeks, the weekly percentage
column included. -/
def pivot_sum (weeks : List WeekPctRow) : SeasonPctCell :=
  { made_sum := (weeks.map WeekPctRow.made).sum
    attempted_sum := (weeks.map WeekPctRow.attempted).sum
    pct := (weeks.map WeekPctRow.weekly_pct).sum }

/-- Embeds the percentage recomputation of `create_season_table`
(visualizer.py): after the pivot sum, the percentage column is overwritten by
the season-cumulative quotient of the summed made and attempted counters. -/
def create_season_table (weeks : List WeekPctRow) : SeasonPctCell :=
  let table := pivot_sum weeks
  { table with pct := table.made_sum / table.attempted_sum }

/-- C1: the season-table value of a percentage category is the quotient of the
season-cumulative summed counters, recomputed at read time, not an average of
the weekly percentages; on the weekly fractions 2/2 and 0/8 it equals 0.2
while the mean of the weekly ratios is 0.5. -/
theorem season_pct_from_summed_counters :
    (∀ weeks : List WeekPctRow,
        (create_season_table weeks).pct
          = (weeks.map WeekPctRow.made).sum / (weeks.map WeekPctRow.attempted).sum)
    ∧ (create_season_table [⟨2, 2, 1⟩, ⟨0, 8, 0⟩]).pct = 2/10
    ∧ (([(⟨2, 2, 1⟩ : WeekPctRow), ⟨0, 8, 0⟩].map WeekPctRow.weekly_pct).sum
          / ([(⟨2, 2, 1⟩ : WeekPctRow), ⟨0, 8, 0⟩].length : ℚ)) = 5/10
    ∧ (create_season_table [⟨2, 2, 1⟩, ⟨0, 8, 0⟩]).pct
        ≠ (([(⟨2, 2, 1⟩ : WeekPctRow), ⟨0, 8, 0⟩].map WeekPctRow.weekly_pct).sum
          / ([(⟨2, 2, 1⟩ : WeekPctRow), ⟨0, 8, 0⟩].length : ℚ)) := by
  refine ⟨fun weeks => rfl, by norm_num [create_season_table, pivot_sum], ?_, ?_⟩
  · norm_num
  · norm_num [create_season_table, pivot_sum]

/-- Column construction of `analyse_predictions` (analyzer.py) for one player
row: the four per-model prediction values, then the `Average` column appended
as the mean over the columns present at that point, then the `Reality` column
appended last. -/
def add_average_column (models : List ℚ) : List ℚ :=
  models ++ [models.sum / (models.length : ℚ)]

/-- Appends the `Reality` column after the `Average` column. -/
def add_reality_column (row : List ℚ) (reality : ℚ) : List ℚ :=
  row ++ [reality]

/-- One finished row of the prediction table, in the source's column order:
forest, lasso, elastic (Huber), ridge, Average, Reality. -/
def analyse_prediction_row (forest lasso elastic ridge reality : ℚ) : List ℚ :=
  add_reality_column (add_average_column [forest, lasso, elastic, ridge]) reality

/-- C8: the `Average` column of the prediction table is the unweighted mean of
exactly the four per-model prediction columns, computed before the `Reality`
column is appended, so the reality value never enters the mean. -/
theorem average_column_is_model_mean (forest lasso elastic ridge reality : ℚ) :
    analyse_prediction_row forest lasso elastic ridge reality
      = [forest, lasso, elastic, ridge, (forest + lasso + elastic + ridge) / 4, reality]
    ∧ (analyse_prediction_row forest lasso elastic ridge reality).getD 4 0
        = (forest + lasso + elastic + ridge) / 4
    ∧ add_average_column [forest, lasso, elastic, ridge]
        = [forest, lasso, elastic, ridge, (forest + lasso + elastic + ridge) / 4] := by
  have havg : add_average_column [forest, lasso, elastic, ridge]
      = [forest, lasso, elastic, ridge, (forest + lasso + elastic + ridge) / 4] := by
    simp [add_average_column, List.sum_cons]
    ring_nf
  refine ⟨?_, ?_, havg⟩
  · rw [analyse_prediction_row, havg, add_reality_column]
    rfl
  · rw [analyse_prediction_row, havg, add_reality_column]
    rfl

/-- Per-game-averaged stat row read by `calculate_points` (organizer.py).  The
field names follow the positional columns of the source: fga = column 9,
fgm = 10, fg_pct = 11, fta = 12, ftm = 13, ft_pct = 14, threes = 16,
pts = 18, reb = 21, ast = 22, st = 23, blk = 24, turnovers = 25. -/
structure PlayerAvgRow where
  fga : ℚ
  fgm : ℚ
  fg_pct : ℚ
  fta : ℚ
  ftm : ℚ
  ft_pct : ℚ
  threes : ℚ
  pts : ℚ
  reb : ℚ
  ast : ℚ
  st : ℚ
  blk : ℚ
  turnovers : ℚ
deriving DecidableEq

/-- The FG% contribution of `calculate_points`: the weight is the first
multiplier entry 8 when the stored FG% column exceeds the 0.46 baseline and
the second entry 9 otherwise; the whole term is guarded on attempts being
positive and is 0 otherwise. -/
def fg_points (r : PlayerAvgRow) : ℚ :=
  if r.fga > 0 then
    (r.fgm / r.fga - 46/100) * r.fga * (if r.fg_pct > 46/100 then 8 else 9)
  else 0

/-- The FT% contribution of `calculate_points`: weight 15 above the 0.78
baseline and 10 otherwise, guarded on attempts being positive. -/
def ft_points (r : PlayerAvgRow) : ℚ :=
  if r.fta > 0 then
    (r.ftm / r.fta - 78/100) * r.fta * (if r.ft_pct > 78/100 then 15 else 10)
  else 0

/-- Embeds the total of `calculate_points` (organizer.py): the sum of the nine
category contributions appended to the points list, in source order. -/
def calculate_points (r : PlayerAvgRow) : ℚ :=
  [fg_points r, ft_points r, r.threes * 6, r.pts * (8/10), r.reb * (18/10),
   r.ast * 3, r.st * 13, r.blk * 9, r.turnovers * (-4)].sum

/-- Modelled from the claim's wording: a percentage category contributes
(actual_ratio - baseline) * volume * weight, with the weight sign-flipped when
the player is below the baseline. -/
def pct_points_claimed (base w ratio volume : ℚ) : ℚ :=
  if ratio > base then (ratio - base) * volume * w
  else (ratio - base) * volume * (-w)

/-- C7 counterexample: the code's FG% weight is not a sign-flipped copy of the
above-baseline weight.  Above the baseline the code matches the claimed
formula with weight 8, but below the baseline the code multiplies by the
different positive weight 9, giving -23.4 for a 2-of-10 shooter where the
sign-flipped-weight formula would give +20.8. -/
theorem pct_weight_not_sign_flipped :
    fg_points ⟨10, 6, 6/10, 0, 0, 0, 0, 0, 0, 0, 0, 0, 0⟩
      = pct_points_claimed (46/100) 8 (6/10) 10
    ∧ fg_points ⟨10, 2, 2/10, 0, 0, 0, 0, 0, 0, 0, 0, 0, 0⟩ = -117/5
    ∧ pct_points_claimed (46/100) 8 (2/10) 10 = 104/5
    ∧ fg_points ⟨10, 2, 2/10, 0, 0, 0, 0, 0, 0, 0, 0, 0, 0⟩
        ≠ pct_points_claimed (46/100) 8 (2/10) 10
    ∧ fg_points ⟨10, 2, 2/10, 0, 0, 0, 0, 0, 0, 0, 0, 0, 0⟩ < 0
    ∧ 0 < pct_points_claimed (46/100) 8 (2/10) 10 := by
  refine ⟨?_, ?_, ?_, ?_, ?_, ?_⟩ <;> norm_num [fg_points, pct_points_claimed]

/-- C7 amended: fantasy points are the sum of the nine category contributions;
each percentage category contributes (actual_ratio - baseline) * attempts *
weight where the weight keeps its sign but changes magnitude below the
baseline (8 above vs 9 at-or-below for FG%, 15 above vs 10 at-or-below for
FT%, chosen by the stored percentage column), so the contribution's sign flip
comes from the ratio-minus-baseline factor; volume categories contribute
value * fixed weight, negative (-4) for turnovers. -/
theorem calculate_points_formula (r : PlayerAvgRow) :
    (calculate_points r
      = fg_points r + ft_points r + r.threes * 6 + r.pts * (8/10) + r.reb * (18/10)
        + r.ast * 3 + r.st * 13 + r.blk * 9 + r.turnovers * (-4))
    ∧ (r.fga > 0 →
        fg_points r = (r.fgm / r.fga - 46/100) * r.fga * (if r.fg_pct > 46/100 then 8 else 9))
    ∧ (r.fta > 0 →
        ft_points r = (r.ftm / r.fta - 78/100) * r.fta * (if r.ft_pct > 78/100 then 15 else 10))
    ∧ (r.fga > 0 → r.fgm / r.fga < 46/100 → fg_points r < 0)
    ∧ (r.fga > 0 → 46/100 < r.fgm / r.fga → 0 < fg_points r)
    ∧ (r.fta > 0 → r.ftm / r.fta < 78/100 → ft_points r < 0)
    ∧ (r.fta > 0 → 78/100 < r.ftm / r.fta → 0 < ft_points r) := by
  refine ⟨?_, ?_, ?_, ?_, ?_, ?_, ?_⟩
  · simp [calculate_points]
    ring
  · intro h
    rw [fg_points, if_pos h]
  · intro h
    rw [ft_points, if_pos h]
  · intro h hr
    rw [fg_points, if_pos h]
    have hw : (0 : ℚ) < (if r.fg_pct > 46/100 then (8 : ℚ) else 9) := by
      split <;> norm_num
    have hd : r.fgm / r.fga - 46/100 < 0 := by linarith
    nlinarith [mul_neg_of_neg_of_pos hd (mul_pos h hw)]
  · intro h hr
    rw [fg_points, if_pos h]
    have hw : (0 : ℚ) < (if r.fg_pct > 46/100 then (8 : ℚ) else 9) := by
      split <;> norm_num
    have hd : (0 : ℚ) < r.fgm / r.fga - 46/100 := by linarith
    exact mul_pos (mul_pos hd h) hw
  · intro h hr
    rw [ft_points, if_pos h]
    have hw : (0 : ℚ) < (if r.ft_pct > 78/100 then (15 : ℚ) else 10) := by
      split <;> norm_num
    have hd : r.ftm / r.fta - 78/100 < 0 := by linarith
    nlinarith [mul_neg_of_neg_of_pos hd (mul_pos h hw)]
  · intro h hr
    rw [ft_points, if_pos h]
    have hw : (0 : ℚ) < (if r.ft_pct > 78/100 then (15 : ℚ) else 10) := by
      split <;> norm_num
    have hd : (0 : ℚ) < r.ftm / r.fta - 78/100 := by linarith
    exact mul_pos (mul_pos hd h) hw

theorem calculate_points_formula_witness :
    (calculate_points ⟨10, 2, 2/10, 10, 9, 9/10, 1, 1, 1, 1, 1, 1, 1⟩
      = fg_points ⟨10, 2, 2/10, 10, 9, 9/10, 1, 1, 1, 1, 1, 1, 1⟩
        + ft_points ⟨10, 2, 2/10, 10, 9, 9/10, 1, 1, 1, 1, 1, 1, 1⟩
        + 1 * 6 + 1 * (8/10) + 1 * (18/10) + 1 * 3 + 1 * 13 + 1 * 9 + 1 * (-4))
    ∧ fg_points ⟨10, 2, 2/10, 10, 9, 9/10, 1, 1, 1, 1, 1, 1, 1⟩ < 0
    ∧ 0 < ft_points ⟨10, 2, 2/10, 10, 9, 9/10, 1, 1, 1, 1, 1, 1, 1⟩ := by
  have h := calculate_points_formula ⟨10, 2, 2/10, 10, 9, 9/10, 1, 1, 1, 1, 1, 1, 1⟩
  exact ⟨h.1, h.2.2.2.1 (by norm_num) (by norm_num), h.2.2.2.2.2.2 (by norm_num) (by norm_num)⟩

/-- Embeds `create_average_stats` (organizer.py) for one player's raw stat
vector: for each position in the averaging list, the entry is divided by the
games-played column (index 6) only when that column is positive; nothing else
happens in the zero-games case, so the raw totals are left in place. -/
def create_average_stats (positions : List Nat) (row : List ℚ) : List ℚ :=
  positions.foldl
    (fun acc pos =>
      if acc.getD 6 0 > 0 then acc.set pos (acc.getD pos 0 / acc.getD 6 0) else acc) row

/-- The positions averaged for the basic stat set, `stats_to_take_average`
(organizer.py). -/
def stats_to_take_average : List Nat :=
  [8, 9, 10, 12, 13, 15, 16, 18, 19, 20, 21, 22, 23, 24, 25, 27]

lemma create_average_stats_zero_gp (positions : List Nat) (row : List ℚ)
    (h : row.getD 6 0 = 0) : create_average_stats positions row = row := by
  induction positions with
  | nil => rfl
  | cons p ps ih =>
    have hstep :
        (if row.getD 6 0 > 0 then row.set p (row.getD p 0 / row.getD 6 0) else row) = row := by
      rw [h, if_neg (lt_irrefl 0)]
    calc create_average_stats (p :: ps) row
        = create_average_stats ps
            (if row.getD 6 0 > 0 then row.set p (row.getD p 0 / row.getD 6 0) else row) := rfl
      _ = create_average_stats ps row := by rw [hstep]
      _ = row := ih

/-- C9 counterexample: for a player vector with zero games played (column 6)
and a nonzero accumulated counter, `create_average_stats` does not
short-circuit the per-game average to zero; it leaves the raw total 5 in
place. -/
theorem zero_games_not_zeroed :
    create_average_stats stats_to_take_average [0, 0, 0, 0, 0, 0, 0, 0, (5 : ℚ)]
      = [0, 0, 0, 0, 0, 0, 0, 0, (5 : ℚ)]
    ∧ (create_average_stats stats_to_take_average [0, 0, 0, 0, 0, 0, 0, 0, (5 : ℚ)]).getD 8 0 = 5
    ∧ (5 : ℚ) ≠ 0 := by
  have h0 : create_average_stats stats_to_take_average [0, 0, 0, 0, 0, 0, 0, 0, (5 : ℚ)]
      = [0, 0, 0, 0, 0, 0, 0, 0, (5 : ℚ)] :=
    create_average_stats_zero_gp _ _ rfl
  refine ⟨h0, by rw [h0]; rfl, by norm_num⟩

/-- C9 amended: every division in the pipeline is guarded on its denominator:
per-game averaging is skipped entirely when games played is zero, leaving the
raw totals unchanged (a defined value, no error or NaN), and the percentage
scoring contributions short-circuit to exactly zero when attempts are zero. -/
theorem division_guards (positions : List Nat) (row : List ℚ) (r : PlayerAvgRow) :
    (row.getD 6 0 = 0 → create_average_stats positions row = row)
    ∧ (r.fga = 0 → fg_points r = 0)
    ∧ (r.fta = 0 → ft_points r = 0) := by
  refine ⟨?_, ?_, ?_⟩
  · exact create_average_stats_zero_gp positions row
  · intro h
    rw [fg_points, if_neg (by rw [h]; exact lt_irrefl 0)]
  · intro h
    rw [ft_points, if_neg (by rw [h]; exact lt_irrefl 0)]

theorem division_guards_witness :
    (create_average_stats [8] [0, 0, 0, 0, 0, 0, 0, 0, (7 : ℚ)] = [0, 0, 0, 0, 0, 0, 0, 0, (7 : ℚ)])
    ∧ fg_points ⟨0, 0, 0, 0, 0, 0, 0, 0, 0, 0, 0, 0, 0⟩ = 0
    ∧ ft_points ⟨0, 0, 0, 0, 0, 0, 0, 0, 0, 0, 0, 0, 0⟩ = 0 := by
  have h := division_guards [8] [0, 0, 0, 0, 0, 0, 0, 0, (7 : ℚ)]
      ⟨0, 0, 0, 0, 0, 0, 0, 0, 0, 0, 0, 0, 0⟩
  exact ⟨h.1 (by decide), h.2.1 (by norm_num), h.2.2 (by norm_num)⟩

/-- A feature row of the 3-year training window (analyzer.py,
`generate_analysis_3_years`): the games-played indicator columns carry the
source column labels 6_3, 6_2 and 6 after the two suffixed merges; the other
feature columns are kept in `rest`. -/
structure Row3 where
  gp_3 : ℚ
  gp_2 : ℚ
  gp_1 : ℚ
  rest : List ℚ
deriving DecidableEq

/-- A feature row of the 2-year training window (columns 6_2 and 6_1). -/
structure Row2 where
  gp_2 : ℚ
  gp_1 : ℚ
  rest : List ℚ
deriving DecidableEq

/-- A feature row of the 1-year training window (column 6). -/
structure Row1 where
  gp : ℚ
  rest : List ℚ
deriving DecidableEq

/-- Drop condition of `generate_analysis_3_years`: some games-played column of
the three constituent seasons is zero. -/
def gp_zero_3 (r : Row3) : Bool := r.gp_3 == 0 || r.gp_2 == 0 || r.gp_1 == 0

/-- Drop condition of `generate_analysis_2_years`. -/
def gp_zero_2 (r : Row2) : Bool := r.gp_2 == 0 || r.gp_1 == 0

/-- Drop condition of `generate_analysis_1_year`. -/
def gp_zero_1 (r : Row1) : Bool := r.gp == 0

/-- The `drop_list` accumulation of the source: the positional indices of the
feature rows satisfying the drop condition. -/
def drop_list {α : Type} (p : α → Bool) (d : α) (X : List α) : List Nat :=
  (List.range X.length).filter (fun i => p (X.getD i d))

/-- Embeds `DataFrame.drop(index=ds)` on a positionally indexed frame: every
row whose index is listed is removed, the others keep their order. -/
def drop_rows {α : Type} (l : List α) (ds : List Nat) : List α :=
  (l.enum.filter (fun pr => !(decide (pr.1 ∈ ds)))).map Prod.snd

def default_row_3 : Row3 := ⟨0, 0, 0, []⟩

def default_row_2 : Row2 := ⟨0, 0, []⟩

def default_row_1 : Row1 := ⟨0, []⟩

/-- The validity filter of `generate_analysis_3_years` on an aligned feature
matrix and target vector: one drop list is computed from the feature rows and
removed from both frames.  The source applies this same step to the training
pair and to the test pair. -/
def filter_window_3 (X : List Row3) (y : List ℚ) : List Row3 × List ℚ :=
  (drop_rows X (drop_list gp_zero_3 default_row_3 X),
   drop_rows y (drop_list gp_zero_3 default_row_3 X))

/-- The validity filter of `generate_analysis_2_years`. -/
def filter_window_2 (X : List Row2) (y : List ℚ) : List Row2 × List ℚ :=
  (drop_rows X (drop_list gp_zero_2 default_row_2 X),
   drop_rows y (drop_list gp_zero_2 default_row_2 X))

/-- The validity filter of `generate_analysis_1_year`. -/
def filter_window_1 (X : List Row1) (y : List ℚ) : List Row1 × List ℚ :=
  (drop_rows X (drop_list gp_zero_1 default_row_1 X),
   drop_rows y (drop_list gp_zero_1 default_row_1 X))

lemma mem_drop_list_iff {α : Type} (p : α → Bool) (d : α) (X : List α) (i : Nat) :
    i ∈ drop_list p d X ↔ i < X.length ∧ p (X.getD i d) = true := by
  simp [drop_list, List.mem_filter, List.mem_range]

lemma filter_enumFrom_eq_zip {α β : Type} (p : α → Bool) (d : α) (q : Nat → Bool) :
    ∀ (X : List α) (y : List β) (k : Nat),
      X.length = y.length →
      (∀ j, j < X.length → q (k + j) = p (X.getD j d)) →
      ((List.enumFrom k y).filter (fun pr => !(q pr.1))).map Prod.snd
        = ((X.zip y).filter (fun pr => !(p pr.1))).map Prod.snd := by
  intro X
  induction X with
  | nil =>
    intro y k hlen _
    have hy : y = [] := List.length_eq_zero.mp hlen.symm
    subst hy
    rfl
  | cons a X ih =>
    intro y k hlen hq
    cases y with
    | nil => simp at hlen
    | cons b ys =>
      have hlen' : X.length = ys.length := by simpa using hlen
      have hq0 : q k = p a := by simpa using hq 0 (Nat.succ_pos _)
      have hq' : ∀ j, j < X.length → q (k + 1 + j) = p (X.getD j d) := by
        intro j hj
        have h2 := hq (j + 1) (Nat.succ_lt_succ hj)
        have e1 : k + (j + 1) = k + 1 + j := by omega
        rw [e1] at h2
        exact h2
      have hrec := ih ys (k + 1) hlen' hq'
      rw [show List.enumFrom k (b :: ys) = (k, b) :: List.enumFrom (k + 1) ys from rfl,
        List.zip_cons_cons, List.filter_cons, List.filter_cons]
      by_cases hpa : p a = true
      · simp only [hq0, hpa, Bool.not_true, if_neg]
        exact hrec
      · rw [Bool.not_eq_true] at hpa
        simp only [hq0, hpa, Bool.not_false, if_pos, List.map_cons]
        rw [hrec]

lemma drop_rows_drop_list {α β : Type} (p : α → Bool) (d : α) (X : List α) (y : List β)
    (hlen : X.length = y.length) :
    drop_rows y (drop_list p d X)
      = ((X.zip y).filter (fun pr => !(p pr.1))).map Prod.snd := by
  rw [drop_rows, show y.enum = List.enumFrom 0 y from rfl]
  apply filter_enumFrom_eq_zip p d (fun i => decide (i ∈ drop_list p d X)) X y 0 hlen
  intro j hj
  rw [Nat.zero_add]
  by_cases hp : p (X.getD j d) = true
  · simp [mem_drop_list_iff, hj, hp]
  · rw [Bool.not_eq_true] at hp
    simp [mem_drop_list_iff, hj, hp]

lemma zip_self_filter_map {α : Type} (p : α → Bool) :
    ∀ X : List α,
      ((X.zip X).filter (fun pr => !(p pr.1))).map Prod.snd = X.filter (fun a => !(p a)) := by
  intro X
  induction X with
  | nil => rfl
  | cons a X ih =>
    rw [List.zip_cons_cons, List.filter_cons, List.filter_cons]
    by_cases hpa : p a = true
    · simp only [hpa, Bool.not_true, if_neg]
      exact ih
    · rw [Bool.not_eq_true] at hpa
      simp only [hpa, Bool.not_false, if_pos, List.map_cons]
      rw [ih]

lemma drop_rows_self {α : Type} (p : α → Bool) (d : α) (X : List α) :
    drop_rows X (drop_list p d X) = X.filter (fun a => !(p a)) := by
  rw [drop_rows_drop_list p d X X rfl, zip_self_filter_map]

/-- C5: for each lookback window (3, 2 and 1 years), the validity filter keeps
in the feature matrix exactly the rows whose games-played indicator columns
are all nonzero, removes the same positions from the aligned target vector,
and therefore no row with a zero games-played column in any constituent
season survives.  The source applies the same filtering step to the training
pair and to the test pair of each window. -/
theorem games_played_validity_filter
    (X3 : List Row3) (y3 : List ℚ) (h3 : X3.length = y3.length)
    (X2 : List Row2) (y2 : List ℚ) (h2 : X2.length = y2.length)
    (X1 : List Row1) (y1 : List ℚ) (h1 : X1.length = y1.length) :
    ((filter_window_3 X3 y3).1 = X3.filter (fun r => !(gp_zero_3 r))
      ∧ (filter_window_3 X3 y3).2
          = ((X3.zip y3).filter (fun pr => !(gp_zero_3 pr.1))).map Prod.snd
      ∧ ∀ r ∈ (filter_window_3 X3 y3).1, r.gp_3 ≠ 0 ∧ r.gp_2 ≠ 0 ∧ r.gp_1 ≠ 0)
    ∧ ((filter_window_2 X2 y2).1 = X2.filter (fun r => !(gp_zero_2 r))
      ∧ (filter_window_2 X2 y2).2
          = ((X2.zip y2).filter (fun pr => !(gp_zero_2 pr.1))).map Prod.snd
      ∧ ∀ r ∈ (filter_window_2 X2 y2).1, r.gp_2 ≠ 0 ∧ r.gp_1 ≠ 0)
    ∧ ((filter_window_1 X1 y1).1 = X1.filter (fun r => !(gp_zero_1 r))
      ∧ (filter_window_1 X1 y1).2
          = ((X1.zip y1).filter (fun pr => !(gp_zero_1 pr.1))).map Prod.snd
      ∧ ∀ r ∈ (filter_window_1 X1 y1).1, r.gp ≠ 0) := by
  refine ⟨⟨?_, ?_, ?_⟩, ⟨?_, ?_, ?_⟩, ⟨?_, ?_, ?_⟩⟩
  · exact drop_rows_self gp_zero_3 default_row_3 X3
  · exact drop_rows_drop_list gp_zero_3 default_row_3 X3 y3 h3
  · intro r hr
    have hr2 : r ∈ X3.filter (fun a => !(gp_zero_3 a)) := by
      rw [← drop_rows_self gp_zero_3 default_row_3 X3]
      exact hr
    have hcond := (List.mem_filter.mp hr2).2
    rw [Bool.not_eq_true'] at hcond
    have hparts : (¬r.gp_3 = 0 ∧ ¬r.gp_2 = 0) ∧ ¬r.gp_1 = 0 := by
      simpa [gp_zero_3] using hcond
    exact ⟨hparts.1.1, hparts.1.2, hparts.2⟩
  · exact drop_rows_self gp_zero_2 default_row_2 X2
  · exact drop_rows_drop_list gp_zero_2 default_row_2 X2 y2 h2
  · intro r hr
    have hr2 : r ∈ X2.filter (fun a => !(gp_zero_2 a)) := by
      rw [← drop_rows_self gp_zero_2 default_row_2 X2]
      exact hr
    have hcond := (List.mem_filter.mp hr2).2
    rw [Bool.not_eq_true'] at hcond
    simpa [gp_zero_2] using hcond
  · exact drop_rows_self gp_zero_1 default_row_1 X1
  · exact drop_rows_drop_list gp_zero_1 default_row_1 X1 y1 h1
  · intro r hr
    have hr2 : r ∈ X1.filter (fun a => !(gp_zero_1 a)) := by
      rw [← drop_rows_self gp_zero_1 default_row_1 X1]
      exact hr
    have hcond := (List.mem_filter.mp hr2).2
    rw [Bool.not_eq_true'] at hcond
    simpa [gp_zero_1] using hcond

theorem games_played_validity_filter_witness :
    (filter_window_3 [⟨1, 1, 1, []⟩, ⟨1, 0, 1, []⟩] [10, 20]).1 = [(⟨1, 1, 1, []⟩ : Row3)]
    ∧ (filter_window_3 [⟨1, 1, 1, []⟩, ⟨1, 0, 1, []⟩] [10, 20]).2 = [10]
    ∧ ((⟨1, 1, 1, []⟩ : Row3).gp_3 ≠ 0 ∧ (⟨1, 1, 1, []⟩ : Row3).gp_2 ≠ 0
        ∧ (⟨1, 1, 1, []⟩ : Row3).gp_1 ≠ 0)
    ∧ (filter_window_1 [⟨0, []⟩, ⟨2, []⟩] [6, 7]).1 = [(⟨2, []⟩ : Row1)]
    ∧ (filter_window_1 [⟨0, []⟩, ⟨2, []⟩] [6, 7]).2 = [7] := by
  have h := games_played_validity_filter
    [⟨1, 1, 1, []⟩, ⟨1, 0, 1, []⟩] [10, 20] rfl
    [] [] rfl
    [⟨0, []⟩, ⟨2, []⟩] [6, 7] rfl
  refine ⟨h.1.1.trans (by decide), h.1.2.1.trans (by decide), ?_, h.2.2.1.trans (by decide),
    h.2.2.2.1.trans (by decide)⟩
  apply h.1.2.2 ⟨1, 1, 1, []⟩
  rw [h.1.1]
  decide

/-- Player identifiers, the index labels of the per-season player tables. -/
abbrev PlayerId := Nat

/-- Embeds the `pred.index = ranking.index` assignment in `analyse_predictions`
(analyzer.py): the ranking table's index labels are written onto the
prediction rows in positional order, pairing the k-th prediction with the
k-th label of the ranking table whatever player that label names. -/
def set_pred_index (ranking_index : List PlayerId) (pred_rows : List ℚ) :
    List (PlayerId × ℚ) :=
  ranking_index.zip pred_rows

/-- Stated from the claim's wording, for comparison: an identifier-keyed
alignment attaches to each prediction row the id of the test-matrix row the
prediction was computed from. -/
def id_keyed_alignment (test_index : List PlayerId) (pred_rows : List ℚ) :
    List (PlayerId × ℚ) :=
  test_index.zip pred_rows

/-- Embeds `pd.concat(...).reset_index(drop=True)` as used on the training
frames in `generate_analysis_1_year` (analyzer.py): the player-id labels are
discarded and the rows are re-keyed by position. -/
def concat_reset_index {α : Type} (tables : List (List (PlayerId × α))) : List α :=
  tables.flatten.map Prod.snd

/-- C6 evaluation at the failing input: with prediction rows computed for the
test-matrix order [1, 2] but a ranking table in order [2, 1], the positional
index assignment attributes player 1's prediction (10) to player 2, whereas
the identifier-keyed alignment keeps it with player 1; likewise the positional
concatenation of feature and target tables whose per-season row orders differ
pairs player 1's feature row with player 2's target. -/
theorem pred_index_assignment_positional :
    set_pred_index [2, 1] [10, 20] = [(2, 10), (1, 20)]
    ∧ id_keyed_alignment [1, 2] [10, 20] = [(1, 10), (2, 20)]
    ∧ set_pred_index [2, 1] [10, 20] ≠ id_keyed_alignment [1, 2] [10, 20]
    ∧ (set_pred_index [2, 1] [10, 20]).lookup 1 = some 20
    ∧ (id_keyed_alignment [1, 2] [10, 20]).lookup 1 = some 10
    ∧ concat_reset_index [[(1, (10 : ℚ)), (2, 20)]] = [10, 20]
    ∧ concat_reset_index [[(2, (99 : ℚ)), (1, 11)]] = [99, 11]
    ∧ (concat_reset_index [[(1, (10 : ℚ)), (2, 20)]]).zip
          (concat_reset_index [[(2, (99 : ℚ)), (1, 11)]])
        = [(10, 99), (20, 11)] := by
  refine ⟨rfl, rfl, by decide, rfl, rfl, rfl, rfl, rfl⟩

/-- A Python value reaching `check_if_empty_percentages` (organizer.py):
either a string, or the list of strings produced by `split('/')`. -/
inductive PyVal where
  | pyStr : String → PyVal
  | pyList : List String → PyVal
deriving DecidableEq

/-- Python equality between such a value and a string literal: a list compares
unequal to every string. -/
def py_eq_string : PyVal → String → Bool
  | PyVal.pyStr s, t => s == t
  | PyVal.pyList _, _ => false

/-- Embeds `check_if_empty_percentages` (organizer.py): the exact dash string
becomes "0", the exact dash-slash-dash string becomes "0/0", anything else is
returned unchanged. -/
def check_if_empty_percentages (v : PyVal) : PyVal :=
  if py_eq_string v "-" then PyVal.pyStr "0"
  else if py_eq_string v "-/-" then PyVal.pyStr "0/0"
  else v

/-- Digit-sequence parsing for the model of Python `int`: at least one digit
and nothing but digits. -/
def digits_to_nat (l : List Char) : Option Nat :=
  if l ≠ [] ∧ l.all Char.isDigit then
    some (l.foldl (fun n c => 10 * n + (c.toNat - 48)) 0)
  else none

/-- Models Python `int(s)` on plain decimal strings: an optional single
leading minus sign must be followed by at least one digit; otherwise the call
raises ValueError, modelled as `none`. -/
def python_int (s : String) : Option Int :=
  match s.toList with
  | [] => none
  | c :: rest =>
    if c = Char.ofNat 45 then (digits_to_nat rest).map (fun n => -(n : Int))
    else (digits_to_nat (c :: rest)).map (fun n => (n : Int))

/-- Character-list splitting on the '/' separator, the model of Python's
`split('/')`. -/
def py_split_chars : List Char → List Char → List (List Char)
  | [], acc => [acc.reverse]
  | c :: rest, acc =>
    if c = Char.ofNat 47 then acc.reverse :: py_split_chars rest []
    else py_split_chars rest (c :: acc)

/-- Models Python `stat_value.split('/')`. -/
def py_split (s : String) : List String :=
  (py_split_chars s.toList []).map List.asString

/-- The fraction branch of `fill_in_week_data` (organizer.py) for one stat
value: the split list is passed through `check_if_empty_percentages`, then the
two pieces are unpacked and converted with `int`; `none` models a raised
error (ValueError from `int`, or an unpacking failure). -/
def fill_in_fraction_value (stat_value : String) : Option (Int × Int) :=
  match check_if_empty_percentages (PyVal.pyList (py_split stat_value)) with
  | PyVal.pyList [a, b] =>
    match python_int a, python_int b with
    | some x, some y => some (x, y)
    | _, _ => none
  | _ => none

/-- C10: `check_if_empty_percentages` maps the exact dash string to "0", the
exact dash-slash-dash string to "0/0" and leaves every other argument
unchanged; the fraction path of `fill_in_week_data` hands it the two-element
list produced by splitting on the slash, a list that never equals either
sentinel string, so the substitution branch can never fire there and an empty
fraction value (dash, slash, dash) reaches `int` applied to a bare dash,
which raises ValueError. -/
theorem empty_percentage_guard_unreachable :
    check_if_empty_percentages (PyVal.pyStr "-") = PyVal.pyStr "0"
    ∧ check_if_empty_percentages (PyVal.pyStr "-/-") = PyVal.pyStr "0/0"
    ∧ (∀ s : String, s ≠ "-" → s ≠ "-/-" →
        check_if_empty_percentages (PyVal.pyStr s) = PyVal.pyStr s)
    ∧ (∀ l : List String, check_if_empty_percentages (PyVal.pyList l) = PyVal.pyList l)
    ∧ py_split "-/-" = ["-", "-"]
    ∧ python_int "-" = none
    ∧ fill_in_fraction_value "-/-" = none := by
  refine ⟨rfl, rfl, ?_, ?_, rfl, rfl, rfl⟩
  · intro s h1 h2
    simp [check_if_empty_percentages, py_eq_string, h1, h2]
  · intro l
    simp [check_if_empty_percentages, py_eq_string]

theorem empty_percentage_guard_unreachable_witness :
    check_if_empty_percentages (PyVal.pyStr "7") = PyVal.pyStr "7"
    ∧ check_if_empty_percentages (PyVal.pyList ["-", "-"]) = PyVal.pyList ["-", "-"] := by
  have h := empty_percentage_guard_unreachable
  exact ⟨h.2.2.1 "7" (by decide) (by decide), h.2.2.2.1 ["-", "-"]⟩
